import Mathlib

/-!
# artillery-ota-server: firmware resolution and dual-source serving

A shallow embedding of `main.go` and `tools/generate-embed/main.go`.

* Go strings are Lean `String`s; the library routines the program calls
  (`strings.*`, `path/filepath.*`, `crypto/md5`, `encoding/hex`) are modelled on
  the character list of the string, for the Unix path separator. The patterns
  the program searches for ("..", "/", "./", "../", "client") are ASCII, and in
  UTF-8 an ASCII byte never lies inside the encoding of another character, so
  searching characters and searching bytes agree.
* The bundle (`embed.FS`), the filesystem and the clock are an explicit `World`
  that the functions read.
* The process-wide `firmwareCache` map is an association list in which the most
  recent assignment to a key is the one a lookup finds.
* An HTTP handler is a function from the request to the call that ends it
  (`http.Error`, the JSON encoder, the streamed bundle file, `http.ServeFile`).
* The server is the `http.ServeMux` of `main` in front of the three handlers:
  it cleans the request path, redirects a request whose path is not clean, and
  otherwise calls the handler of the matching pattern.
-/

set_option maxRecDepth 100000

/-! ## Library model: package strings -/

namespace strings

/-- Go `strings.HasPrefix(s, prefix)`. -/
def HasPrefix (s pre : String) : Bool :=
  pre.data.isPrefixOf s.data

/-- Go `strings.TrimPrefix(s, prefix)`: `s` without the leading `prefix`, or `s` itself. -/
def TrimPrefix (s pre : String) : String :=
  if HasPrefix s pre then ⟨s.data.drop pre.data.length⟩ else s

/-- Substring search on character lists: some suffix of the list starts with `sub`. -/
def containsList (sub : List Char) : List Char → Bool
  | [] => sub.isPrefixOf []
  | c :: t => sub.isPrefixOf (c :: t) || containsList sub t

/-- Go `strings.Contains(s, substr)`. -/
def Contains (s substr : String) : Bool :=
  containsList substr.data s.data

/-- Removal of the non-overlapping occurrences of `old`, scanning left to right;
`skip` counts the characters of the current occurrence still to be dropped. -/
def removeAll (old : List Char) : Nat → List Char → List Char
  | _, [] => []
  | skip + 1, _ :: t => removeAll old skip t
  | 0, c :: t =>
    if old.isPrefixOf (c :: t) then removeAll old (old.length - 1) t
    else c :: removeAll old 0 t

/-- Go `strings.Replace(s, old, "", -1)` for a non-empty `old`. -/
def ReplaceAllWithEmpty (s old : String) : String :=
  ⟨removeAll old.data 0 s.data⟩

end strings

/-! ## Library model: package path/filepath (Unix) -/

namespace filepath

/-- The loop `for len(path) > 0 && os.IsPathSeparator(path[len(path)-1])` of `Base`. -/
def stripTrailingSeparators (path : List Char) : List Char :=
  (path.reverse.dropWhile (fun c => c == '/')).reverse

/-- The part of `path` after its last separator (all of it when there is none). -/
def lastElement (path : List Char) : List Char :=
  (path.reverse.takeWhile (fun c => c != '/')).reverse

/-- Go `filepath.Base(path)`. -/
def Base (path : String) : String :=
  if path = "" then "."
  else
    let p := lastElement (stripTrailingSeparators path.data)
    if p = [] then "/" else ⟨p⟩

/-- The backtracking of `Clean` at a `..` element, on the reversed output buffer:
`out.w--` and then `for out.w > dotdot && !os.IsPathSeparator(out.index(out.w)) { out.w-- }`. -/
def backtrackRev (dotdot : Nat) : List Char → List Char
  | [] => []
  | c :: rest =>
    if rest.length > dotdot && c != '/' then backtrackRev dotdot rest else rest

/-- The output buffer of `Clean` after backtracking over one element. -/
def backtrack (dotdot : Nat) (out : List Char) : List Char :=
  (backtrackRev dotdot out.reverse).reverse

/-- The main loop `for r < n` of `Clean`: `rest` is `path[r:]`, `out` the output
buffer, `dotdot` the index where `..` must stop. Every iteration consumes at
least one character of `rest`, so `rest.length` iterations are enough. -/
def cleanLoop (rooted : Bool) : Nat → List Char → List Char → Nat → List Char
  | 0, _, out, _ => out
  | _ + 1, [], out, _ => out
  | fuel + 1, c :: rest, out, dotdot =>
    if c == '/' then
      cleanLoop rooted fuel rest out dotdot
    else if c == '.' && (rest.isEmpty || rest.head? == some '/') then
      cleanLoop rooted fuel rest out dotdot
    else if c == '.' && rest.head? == some '.'
        && (rest.tail.isEmpty || rest.tail.head? == some '/') then
      if out.length > dotdot then
        cleanLoop rooted fuel rest.tail (backtrack dotdot out) dotdot
      else if !rooted then
        let out1 := if out.length > 0 then out ++ ['/'] else out
        let out2 := out1 ++ ['.', '.']
        cleanLoop rooted fuel rest.tail out2 out2.length
      else
        cleanLoop rooted fuel rest.tail out dotdot
    else
      let out1 :=
        if (rooted && out.length != 1) || (!rooted && out.length != 0) then out ++ ['/']
        else out
      cleanLoop rooted fuel ((c :: rest).dropWhile (fun x => x != '/'))
        (out1 ++ (c :: rest).takeWhile (fun x => x != '/')) dotdot

/-- Go `filepath.Clean(path)`. -/
def Clean (path : String) : String :=
  if path = "" then "."
  else
    let rooted := path.data.head? == some '/'
    let out :=
      if rooted then cleanLoop true path.data.length path.data.tail ['/'] 1
      else cleanLoop false path.data.length path.data [] 0
    if out.length = 0 then "." else ⟨out⟩

end filepath

/-! ## Library model: crypto/md5 and encoding/hex

Words are natural numbers below `2^32`; bytes are natural numbers taken modulo 256. -/

namespace md5

/-- Rotation of a 32-bit word to the left by `s` bits. -/
def rotl32 (x s : Nat) : Nat :=
  ((x <<< s) ||| (x >>> (32 - s))) % 4294967296

/-- Bitwise complement of a 32-bit word. -/
def not32 (x : Nat) : Nat :=
  4294967295 - x % 4294967296

/-- The sine-derived constants of RFC 1321. -/
def K : List Nat := [
  0xd76aa478, 0xe8c7b756, 0x242070db, 0xc1bdceee, 0xf57c0faf, 0x4787c62a, 0xa8304613, 0xfd469501,
  0x698098d8, 0x8b44f7af, 0xffff5bb1, 0x895cd7be, 0x6b901122, 0xfd987193, 0xa679438e, 0x49b40821,
  0xf61e2562, 0xc040b340, 0x265e5a51, 0xe9b6c7aa, 0xd62f105d, 0x02441453, 0xd8a1e681, 0xe7d3fbc8,
  0x21e1cde6, 0xc33707d6, 0xf4d50d87, 0x455a14ed, 0xa9e3e905, 0xfcefa3f8, 0x676f02d9, 0x8d2a4c8a,
  0xfffa3942, 0x8771f681, 0x6d9d6122, 0xfde5380c, 0xa4beea44, 0x4bdecfa9, 0xf6bb4b60, 0xbebfbc70,
  0x289b7ec6, 0xeaa127fa, 0xd4ef3085, 0x04881d05, 0xd9d4d039, 0xe6db99e5, 0x1fa27cf8, 0xc4ac5665,
  0xf4292244, 0x432aff97, 0xab9423a7, 0xfc93a039, 0x655b59c3, 0x8f0ccc92, 0xffeff47d, 0x85845dd1,
  0x6fa87e4f, 0xfe2ce6e0, 0xa3014314, 0x4e0811a1, 0xf7537e82, 0xbd3af235, 0x2ad7d2bb, 0xeb86d391]

/-- The per-step rotation amounts of RFC 1321. -/
def S : List Nat := [
  7, 12, 17, 22, 7, 12, 17, 22, 7, 12, 17, 22, 7, 12, 17, 22,
  5, 9, 14, 20, 5, 9, 14, 20, 5, 9, 14, 20, 5, 9, 14, 20,
  4, 11, 16, 23, 4, 11, 16, 23, 4, 11, 16, 23, 4, 11, 16, 23,
  6, 10, 15, 21, 6, 10, 15, 21, 6, 10, 15, 21, 6, 10, 15, 21]

/-- The four chaining words of the digest. -/
structure State where
  a : Nat
  b : Nat
  c : Nat
  d : Nat
deriving DecidableEq, Repr

/-- Step `i` (0 to 63) of the compression function on the message words `m`. -/
def step (m : List Nat) (st : State) (i : Nat) : State :=
  let f :=
    if i < 16 then (st.b &&& st.c) ||| (not32 st.b &&& st.d)
    else if i < 32 then (st.d &&& st.b) ||| (not32 st.d &&& st.c)
    else if i < 48 then st.b ^^^ st.c ^^^ st.d
    else st.c ^^^ (st.b ||| not32 st.d)
  let g :=
    if i < 16 then i
    else if i < 32 then (5 * i + 1) % 16
    else if i < 48 then (3 * i + 5) % 16
    else (7 * i) % 16
  let sum := (st.a + f + K.getD i 0 + m.getD g 0) % 4294967296
  { a := st.d, b := (st.b + rotl32 sum (S.getD i 0)) % 4294967296, c := st.b, d := st.c }

/-- The little-endian 32-bit word at the head of a byte list. -/
def leWord (bs : List Nat) : Nat :=
  bs.getD 0 0 + 256 * bs.getD 1 0 + 65536 * bs.getD 2 0 + 16777216 * bs.getD 3 0

/-- The sixteen message words of a 64-byte block. -/
def blockWords (blk : List Nat) : List Nat :=
  (List.range 16).map (fun j => leWord (blk.drop (4 * j)))

/-- The compression of one 64-byte block into the state. -/
def block (st : State) (blk : List Nat) : State :=
  let r := (List.range 64).foldl (step (blockWords blk)) st
  { a := (st.a + r.a) % 4294967296, b := (st.b + r.b) % 4294967296,
    c := (st.c + r.c) % 4294967296, d := (st.d + r.d) % 4294967296 }

/-- The `n` low bytes of `x`, least significant first. -/
def leBytes (n : Nat) (x : Nat) : List Nat :=
  (List.range n).map (fun j => (x >>> (8 * j)) % 256)

/-- The padded message: the bytes, 0x80, zeros up to 56 modulo 64, the bit length on 8 bytes. -/
def pad (msg : List Nat) : List Nat :=
  msg.map (fun b => b % 256) ++ [128] ++ List.replicate ((119 - msg.length % 64) % 64) 0
    ++ leBytes 8 ((8 * msg.length) % 18446744073709551616)

/-- The compression of `n` consecutive 64-byte blocks. -/
def blocks : Nat → State → List Nat → State
  | 0, st, _ => st
  | n + 1, st, bs => blocks n (block st (bs.take 64)) (bs.drop 64)

/-- Go `hash.Sum(nil)` after the bytes `msg` were written to `md5.New()`: the 16-byte digest. -/
def Sum (msg : List Nat) : List Nat :=
  let p := pad msg
  let st := blocks (p.length / 64) ⟨0x67452301, 0xefcdab89, 0x98badcfe, 0x10325476⟩ p
  leBytes 4 st.a ++ leBytes 4 st.b ++ leBytes 4 st.c ++ leBytes 4 st.d

end md5

namespace hex

/-- The lower-case hexadecimal digit of a value below 16. -/
def digit (n : Nat) : Char :=
  "0123456789abcdef".data.getD n '0'

/-- Go `hex.EncodeToString(bs)`: two lower-case hexadecimal digits per byte. -/
def EncodeToString (bs : List Nat) : String :=
  ⟨bs.flatMap (fun b => [digit (b / 16 % 16), digit (b % 16)])⟩

end hex

/-! ## The environment: errors, bundle, filesystem, clock -/

/-- A non-nil Go `error` value; `notExist` is what `os.IsNotExist` reports about it. -/
structure GoError where
  msg : String
  notExist : Bool
deriving DecidableEq, Repr

/-- An opened file: the outcome of reading it to the end (`io.Copy`) and of `Stat().Size()`. -/
structure OpenedFile where
  content : Except GoError (List Nat)
  size : Except GoError Nat

/-- The state of one filesystem path: `os.Stat` fails on it (and `os.Open` fails
with the same error), or `os.Stat` succeeds and `os.Open` has the given outcome.
Both calls resolve the same path in the same state, so a path that opens is a
path that `os.Stat` finds. -/
inductive FsNode where
  | statError (err : GoError)
  | present (opened : Except GoError OpenedFile)

/-- All that the server reads from outside: the bundle (`embeddedFiles`), the
filesystem and the clock. -/
structure World where
  embeddedFiles : String → Except GoError OpenedFile
  filesystem : String → FsNode
  nowFormatted : String
  nowUnix : Int

namespace os

/-- The error returned by `os.Stat(name)` (`none` is `nil`). -/
def Stat (w : World) (name : String) : Option GoError :=
  match w.filesystem name with
  | .statError err => some err
  | .present _ => none

/-- Go `os.IsNotExist(err)`. -/
def IsNotExist (err : Option GoError) : Bool :=
  match err with
  | some e => e.notExist
  | none => false

/-- Go `os.Open(name)`. -/
def Open (w : World) (name : String) : Except GoError OpenedFile :=
  match w.filesystem name with
  | .statError err => .error err
  | .present opened => opened

end os

/-! ## Data model of main.go -/

structure FirmwareMapping where
  CustomerType : String
  FirmwareType : String
  FilePath : String
  Embed : Bool
  Description : String
  VersionCode : Int
  VersionName : String
deriving DecidableEq, Repr

structure Config where
  Title : String
  Mappings : List FirmwareMapping
deriving DecidableEq, Repr

structure PreCalculatedFirmwareDetail where
  MD5 : String
  FileExists : Bool
  Error : Option GoError
deriving DecidableEq, Repr

/-- The global `firmwareCache map[string]*PreCalculatedFirmwareDetail`: the first
pair with a key is the value the map holds for it. -/
abbrev FirmwareCache := List (String × PreCalculatedFirmwareDetail)

/-- The map read `firmwareCache[key]` (`none` when the key is absent). -/
def FirmwareCache.get (cache : FirmwareCache) (key : String) :
    Option PreCalculatedFirmwareDetail :=
  cache.lookup key

/-- The map assignment `firmwareCache[key] = value`. -/
def FirmwareCache.set (cache : FirmwareCache) (key : String)
    (value : PreCalculatedFirmwareDetail) : FirmwareCache :=
  (key, value) :: cache

structure FirmwareDetail where
  CreateTime : String
  CustomerType : String
  Description : String
  FirmwareMD5 : String
  FirmwareType : String
  Id : String
  IsPublish : Bool
  Name : String
  Path : String
  VersionCode : Int
  VersionName : String
deriving DecidableEq, Repr

structure FirmwareResponse where
  Success : Bool
  Title : String
  Rows : FirmwareDetail
deriving DecidableEq, Repr

/-- What a handler answers: the call that ends it. -/
inductive Response where
  /-- The call `http.Error(w, msg, code)`. -/
  | error (msg : String) (code : Nat)
  /-- The JSON encoding of `body`, with status 200. -/
  | json (body : FirmwareResponse)
  /-- A bundled file streamed by `io.Copy` under the given headers, with status 200. -/
  | stream (headers : List (String × String)) (body : List Nat)
  /-- The delegation `http.ServeFile(w, r, path)` under the given headers. -/
  | serveFile (headers : List (String × String)) (path : String)
  /-- A redirect of `http.ServeMux` to `location`, sent before any handler runs. -/
  | redirect (location : String) (code : Nat)
deriving DecidableEq, Repr

/-- The HTTP status of a response; `http.ServeFile` chooses its own. -/
def Response.status : Response → Option Nat
  | .error _ code => some code
  | .json _ => some 200
  | .stream _ _ => some 200
  | .serveFile _ _ => none
  | .redirect _ code => some code

/-- The decoded query string: the pairs in the order of the URL. -/
abbrev Query := List (String × String)

/-- Go `url.Values.Get(key)`: the first value of `key`, or the empty string. -/
def Query.Get (q : Query) (key : String) : String :=
  (q.lookup key).getD ""

/-! ## The functions of main.go -/

/-- The cache key `fmt.Sprintf("%s:%s", customerType, firmwareType)`. -/
def cacheKey (customerType firmwareType : String) : String :=
  customerType ++ ":" ++ firmwareType

/-- The `relativePath` of `fileExists` (main.go, lines 365-366). -/
def fileExists_relativePath (filePath : String) : String :=
  let relativePath := strings.TrimPrefix filePath "../"
  strings.TrimPrefix relativePath "./"

/-- The `relativePath` of `calculateMD5ForMapping` (main.go, lines 392-393). -/
def calculateMD5ForMapping_relativePath (filePath : String) : String :=
  let relativePath := strings.TrimPrefix filePath "../"
  strings.TrimPrefix relativePath "./"

/-- The `relativePath` of `serveFileContent` (main.go, lines 420-421). -/
def serveFileContent_relativePath (filePath : String) : String :=
  let relativePath := strings.TrimPrefix filePath "../"
  strings.TrimPrefix relativePath "./"

def fileExists (w : World) (mapping : FirmwareMapping) : Bool × Option GoError :=
  if mapping.Embed then
    match w.embeddedFiles (fileExists_relativePath mapping.FilePath) with
    | .error err => (false, some err)
    | .ok _ => (true, none)
  else
    let err := os.Stat w mapping.FilePath
    if os.IsNotExist err then (false, none)
    else (err.isNone, err)

def calculateMD5ForMapping (w : World) (mapping : FirmwareMapping) : String × Option GoError :=
  let opened :=
    if mapping.Embed then w.embeddedFiles (calculateMD5ForMapping_relativePath mapping.FilePath)
    else os.Open w mapping.FilePath
  match opened with
  | .error err => ("", some err)
  | .ok fileReader =>
    match fileReader.content with
    | .error err => ("", some err)
    | .ok bytes => (hex.EncodeToString (md5.Sum bytes), none)

/-- The body of the loop of `initializeFirmwareCache` for one mapping. -/
def initializeFirmwareCache.entry (w : World) (mapping : FirmwareMapping) :
    PreCalculatedFirmwareDetail :=
  let r := fileExists w mapping
  let r2 : String × Option GoError :=
    if r.2.isNone && r.1 then calculateMD5ForMapping w mapping else ("", r.2)
  { MD5 := r2.1, FileExists := r.1, Error := r2.2 }

def initializeFirmwareCache (w : World) (config : Config) : FirmwareCache :=
  config.Mappings.foldl
    (fun cache mapping =>
      cache.set (cacheKey mapping.CustomerType mapping.FirmwareType)
        (initializeFirmwareCache.entry w mapping))
    []

def findMapping (config : Config) (customerType firmwareType : String) :
    Option FirmwareMapping :=
  config.Mappings.find? (fun mapping =>
    mapping.CustomerType == customerType && mapping.FirmwareType == firmwareType)

def findFileMappingByFilename (config : Config) (filename : String) :
    Option FirmwareMapping :=
  config.Mappings.find? (fun mapping =>
    filepath.Base mapping.FilePath == filename
      || filepath.Base (filepath.Clean mapping.FilePath) == filename)

def generateId (w : World) (customerType firmwareType : String) : String :=
  customerType ++ "-" ++ firmwareType ++ "-" ++ toString w.nowUnix

def generateName (customerType firmwareType : String) : String :=
  customerType ++ "_" ++ strings.ReplaceAllWithEmpty firmwareType "client" ++ "_OTA_test"

/-- The headers both branches of `serveFileContent` set before the body. -/
def downloadHeaders (filename : String) : List (String × String) :=
  [("Content-Type", "application/vnd.debian.binary-package"),
   ("Content-Disposition", "attachment; filename=" ++ filename)]

def serveFileContent (w : World) (mapping : FirmwareMapping) (filename : String) :
    Except GoError Response :=
  if mapping.Embed then
    match w.embeddedFiles (serveFileContent_relativePath mapping.FilePath) with
    | .error err => .error err
    | .ok embeddedFile =>
      match embeddedFile.size with
      | .error err => .error err
      | .ok size =>
        match embeddedFile.content with
        | .error err => .error err
        | .ok bytes =>
          .ok (.stream (downloadHeaders filename ++ [("Content-Length", toString size)]) bytes)
  else
    let err := os.Stat w mapping.FilePath
    if os.IsNotExist err then
      match err with
      | some e => .error e
      | none => .ok (.serveFile (downloadHeaders filename) mapping.FilePath)
    else .ok (.serveFile (downloadHeaders filename) mapping.FilePath)

/-- The handler of `/home/downloadnewest` (main.go, lines 81-133). -/
def downloadNewestHandler (w : World) (config : Config) (firmwareCache : FirmwareCache)
    (query : Query) : Response :=
  let customerType := query.Get "customerType"
  let firmwareType := query.Get "firmwareType"
  if customerType == "" || firmwareType == "" then
    .error "Missing customerType or firmwareType parameters" 400
  else
    match findMapping config customerType firmwareType with
    | none =>
      .error ("No mapping found for customerType=" ++ customerType ++ " and firmwareType="
        ++ firmwareType) 404
    | some mapping =>
      match firmwareCache.get (cacheKey customerType firmwareType) with
      | none => .error "Cache entry not found" 500
      | some cachedData =>
        if cachedData.Error.isSome || !cachedData.FileExists then
          .error "File not found or error accessing file" 404
        else
          .json
            { Success := true
              Title := config.Title
              Rows :=
                { CreateTime := w.nowFormatted
                  CustomerType := customerType
                  Description := mapping.Description
                  FirmwareMD5 := cachedData.MD5
                  FirmwareType := firmwareType
                  Id := generateId w customerType firmwareType
                  IsPublish := true
                  Name := generateName customerType firmwareType
                  Path := "/upload/firmware/" ++ filepath.Base mapping.FilePath
                  VersionCode := mapping.VersionCode
                  VersionName := mapping.VersionName } }

/-- The handler of `/download/` (main.go, lines 136-162) on the URL path it
receives, `r.URL.Path`. -/
def downloadHandler (w : World) (config : Config) (urlPath : String) : Response :=
  let filename := strings.TrimPrefix urlPath "/download/"
  if filename == "" then .error "Filename not specified" 400
  else if strings.Contains filename ".." || strings.Contains filename "/" then
    .error "Invalid filename" 400
  else
    match findFileMappingByFilename config filename with
    | none => .error "File not found" 404
    | some mapping =>
      match serveFileContent w mapping filename with
      | .error _ => .error "File not found or error serving file" 404
      | .ok served => served

/-- The handler of `/upload/firmware/` (main.go, lines 165-191) on the URL path it
receives, `r.URL.Path`. -/
def uploadFirmwareHandler (w : World) (config : Config) (urlPath : String) : Response :=
  let filename := strings.TrimPrefix urlPath "/upload/firmware/"
  if filename == "" then .error "Filename not specified" 400
  else if strings.Contains filename ".." || strings.Contains filename "/" then
    .error "Invalid filename" 400
  else
    match findFileMappingByFilename config filename with
    | none => .error "File not found" 404
    | some mapping =>
      match serveFileContent w mapping filename with
      | .error _ => .error "File not found or error serving file" 404
      | .ok served => served

/-- The server from start to one metadata request: `main` builds the cache from
the configuration and the handler reads that cache. -/
def serveDownloadNewest (w : World) (config : Config) (query : Query) : Response :=
  downloadNewestHandler w config (initializeFirmwareCache w config) query

/-! ## The server: http.ServeMux in front of the three handlers

`main` registers the handlers on `http.NewServeMux()` under the patterns
"/home/downloadnewest", "/download/" and "/upload/firmware/" and serves the mux,
wrapped in `tracingMiddleware` when tracing is on. Before it calls a handler the
mux cleans the request path and redirects a request whose path is not clean. -/

/-- The request as the server sees it: `r.URL.Path`, `r.URL.RawQuery` and the
decoded `r.URL.Query()`. The path is taken to need no percent-escapes, so that
`r.URL.EscapedPath()` is the same string, and the method is not CONNECT. -/
structure Request where
  Path : String
  RawQuery : String
  Query : Query
deriving DecidableEq, Repr

/-- Library model: `cleanPath` of net/http, the canonical form of a request
path: `path.Clean` (the algorithm of `filepath.Clean` for "/") of the rooted
path, with a trailing slash put back. -/
def cleanPath (p : String) : String :=
  if p = "" then "/"
  else
    let p := if p.data.head? != some '/' then "/" ++ p else p
    let np := filepath.Clean p
    if p.data.getLast? == some '/' && np != "/" then
      if p.data.length == np.data.length + 1 && strings.HasPrefix p np then p
      else np ++ "/"
    else np

/-- The handler a pattern of the mux stands for. -/
inductive Route where
  | downloadNewest
  | download
  | uploadFirmware
deriving DecidableEq, Repr

/-- Library model: the pattern of the mux that matches a path: "/home/downloadnewest"
matches that path alone, a pattern that ends in a slash matches every path that
starts with it. -/
def muxMatch (path : String) : Option Route :=
  if path == "/home/downloadnewest" then some .downloadNewest
  else if strings.HasPrefix path "/download/" then some .download
  else if strings.HasPrefix path "/upload/firmware/" then some .uploadFirmware
  else none

/-- Library model: the paths the mux redirects to themselves plus a slash: no
pattern matches the path, and the path with a slash added is a registered subtree. -/
def muxAddsSlash (path : String) : Bool :=
  path == "/download" || path == "/upload/firmware"

/-- The location of a redirect: the path, and the raw query when there is one. -/
def redirectLocation (path rawQuery : String) : String :=
  if rawQuery == "" then path else path ++ "?" ++ rawQuery

/-- Library model: `(*http.ServeMux).ServeHTTP` on the three patterns of `main`
(main.go, lines 78, 81, 136, 165). `redirectCode` is the status the library gives
its redirects (301 or 307, by Go version). -/
def muxServeHTTP (redirectCode : Nat) (w : World) (config : Config)
    (firmwareCache : FirmwareCache) (r : Request) : Response :=
  let path := cleanPath r.Path
  if muxAddsSlash path then .redirect (redirectLocation (path ++ "/") r.RawQuery) redirectCode
  else if path != r.Path then .redirect (redirectLocation path r.RawQuery) redirectCode
  else
    match muxMatch path with
    | none => .error "404 page not found" 404
    | some .downloadNewest => downloadNewestHandler w config firmwareCache r.Query
    | some .download => downloadHandler w config r.Path
    | some .uploadFirmware => uploadFirmwareHandler w config r.Path

/-- The wrapper `tracingMiddleware` (main.go, lines 319-348): it logs the request
and the status and hands the request to `next` unchanged. -/
def tracingMiddleware (next : Request → Response) : Request → Response :=
  fun r => next r

/-- The handler `main` serves (main.go, lines 72-78 and 194-202): the cache is
built from the configuration, the mux is wrapped when tracing is on. -/
def serverHandler (redirectCode : Nat) (enableTracing : Bool) (w : World) (config : Config)
    (r : Request) : Response :=
  let mux := muxServeHTTP redirectCode w config (initializeFirmwareCache w config)
  let handler := if enableTracing then tracingMiddleware mux else mux
  handler r

/-! ## tools/generate-embed/main.go -/

namespace GenerateEmbed

structure FirmwareMapping where
  CustomerType : String
  FirmwareType : String
  FilePath : String
  Embed : Bool
deriving DecidableEq, Repr

structure Config where
  Mappings : List FirmwareMapping
deriving DecidableEq, Repr

/-- The `relativePath` of the tool's loop (tools/generate-embed/main.go, lines 54-55). -/
def relativePath (filePath : String) : String :=
  let relativePath := strings.TrimPrefix filePath "../"
  strings.TrimPrefix relativePath "./"

/-- The list `embedPaths` the tool hands to the template (lines 48-58). -/
def embedPaths (config : Config) : List String :=
  config.Mappings.foldl
    (fun embedPaths mapping =>
      if mapping.Embed then embedPaths ++ [relativePath mapping.FilePath] else embedPaths)
    ["config.json"]

end GenerateEmbed

/-- The tool's view of a record of config.json: the four fields its struct declares. -/
def toolDecodeMapping (m : FirmwareMapping) : GenerateEmbed.FirmwareMapping :=
  { CustomerType := m.CustomerType, FirmwareType := m.FirmwareType,
    FilePath := m.FilePath, Embed := m.Embed }

/-- The tool's view of config.json. -/
def toolDecodeConfig (config : Config) : GenerateEmbed.Config :=
  { Mappings := config.Mappings.map toolDecodeMapping }

/-! ## Readings of the specification's words -/

/-- The existence check of the cache builder on a descriptor: bundled, the
normalised path opens in the bundle; filesystem, `os.Stat` of filePath succeeds. -/
def existenceCheckSucceeds (w : World) (d : FirmwareMapping) : Bool :=
  if d.Embed then
    match w.embeddedFiles (fileExists_relativePath d.FilePath) with
    | .ok _ => true
    | .error _ => false
  else (os.Stat w d.FilePath).isNone

/-- The specification's "the artifact is readable at its resolved path": bundled,
it opens in the bundle; filesystem, it can be opened and read at filePath. -/
def artifactReadable (w : World) (d : FirmwareMapping) : Bool :=
  if d.Embed then
    match w.embeddedFiles (fileExists_relativePath d.FilePath) with
    | .ok _ => true
    | .error _ => false
  else
    match os.Open w d.FilePath with
    | .ok f =>
      match f.content with
      | .ok _ => true
      | .error _ => false
    | .error _ => false

/-- The bytes of a descriptor's own artifact, when it opens and reads to the end
at its resolved path. -/
def artifactBytes (w : World) (d : FirmwareMapping) : Option (List Nat) :=
  match (if d.Embed then w.embeddedFiles (calculateMD5ForMapping_relativePath d.FilePath)
      else os.Open w d.FilePath) with
  | .ok f =>
    match f.content with
    | .ok bytes => some bytes
    | .error _ => none
  | .error _ => none

/-- The specification's "(customerType, firmwareType) pairs are unique within the table". -/
def pairsUnique (config : Config) : Prop :=
  config.Mappings.Pairwise
    (fun a b => ¬ (a.CustomerType = b.CustomerType ∧ a.FirmwareType = b.FirmwareType))

/-- No two descriptors of the table share the cache key "customerType:firmwareType". -/
def keysUnique (config : Config) : Prop :=
  config.Mappings.Pairwise
    (fun a b => cacheKey a.CustomerType a.FirmwareType ≠ cacheKey b.CustomerType b.FirmwareType)

/-- The lower-case hexadecimal digits. -/
def isLowerHex (c : Char) : Bool :=
  "0123456789abcdef".data.contains c

/-! ## Concrete tables and worlds used as test inputs -/

/-- The error of a path that does not exist. -/
def errNotExist : GoError :=
  { msg := "no such file or directory", notExist := true }

/-- The error of a path the process may not read. -/
def errPermission : GoError :=
  { msg := "permission denied", notExist := false }

/-- A regular file that opens and reads to the end. -/
def regularFile (bytes : List Nat) : OpenedFile :=
  { content := .ok bytes, size := .ok bytes.length }

/-- A bundle with no file in it. -/
def emptyBundle : String → Except GoError OpenedFile :=
  fun _ => .error errNotExist

/-- The table of the specification's end-to-end test: one filesystem entry. -/
def specConfig : Config :=
  { Title := ""
    Mappings :=
      [{ CustomerType := "X", FirmwareType := "Y", FilePath := "./f.deb", Embed := false,
         Description := "", VersionCode := 0, VersionName := "" }] }

/-- The world of the specification's end-to-end test: f.deb holds the bytes "abc". -/
def specWorld : World :=
  { embeddedFiles := emptyBundle
    filesystem := fun p =>
      if p = "./f.deb" then .present (.ok (regularFile [97, 98, 99]))
      else .statError errNotExist
    nowFormatted := "2026-01-01 00:00:00"
    nowUnix := 1767225600 }

/-- The first of two descriptors of the pair (X, Y): its file is there. -/
def dupFirst : FirmwareMapping :=
  { CustomerType := "X", FirmwareType := "Y", FilePath := "./f.deb", Embed := false,
    Description := "first", VersionCode := 1, VersionName := "1.0" }

/-- A table in which the pair (X, Y) occurs twice; the second file is missing. -/
def dupConfig : Config :=
  { Title := ""
    Mappings :=
      [dupFirst,
       { CustomerType := "X", FirmwareType := "Y", FilePath := "./missing.deb", Embed := false,
         Description := "second", VersionCode := 2, VersionName := "2.0" }] }

/-- A descriptor whose file exists but may not be opened. -/
def lockedMapping : FirmwareMapping :=
  { CustomerType := "X", FirmwareType := "Y", FilePath := "./locked.deb", Embed := false,
    Description := "", VersionCode := 0, VersionName := "" }

def lockedConfig : Config :=
  { Title := "", Mappings := [lockedMapping] }

/-- A world where `os.Stat` of locked.deb succeeds and `os.Open` is refused. -/
def lockedWorld : World :=
  { embeddedFiles := emptyBundle
    filesystem := fun p =>
      if p = "./locked.deb" then .present (.error errPermission)
      else .statError errNotExist
    nowFormatted := "2026-01-01 00:00:00"
    nowUnix := 1767225600 }

/-- A descriptor whose customer type holds a colon. -/
def colonFirst : FirmwareMapping :=
  { CustomerType := "a:b", FirmwareType := "c", FilePath := "./f.deb", Embed := false,
    Description := "first", VersionCode := 1, VersionName := "1.0" }

/-- Two descriptors with different pairs and the same cache key "a:b:c". -/
def colonConfig : Config :=
  { Title := ""
    Mappings :=
      [colonFirst,
       { CustomerType := "a", FirmwareType := "b:c", FilePath := "./g.deb", Embed := false,
         Description := "second", VersionCode := 2, VersionName := "2.0" }] }

/-- A world where f.deb holds "abc" and g.deb holds "abd". -/
def colonWorld : World :=
  { embeddedFiles := emptyBundle
    filesystem := fun p =>
      if p = "./f.deb" then .present (.ok (regularFile [97, 98, 99]))
      else if p = "./g.deb" then .present (.ok (regularFile [97, 98, 100]))
      else .statError errNotExist
    nowFormatted := "2026-01-01 00:00:00"
    nowUnix := 1767225600 }

/-- A descriptor with an empty customer type. -/
def blankMapping : FirmwareMapping :=
  { CustomerType := "", FirmwareType := "Y", FilePath := "./f.deb", Embed := false,
    Description := "", VersionCode := 0, VersionName := "" }

def blankConfig : Config :=
  { Title := "", Mappings := [blankMapping] }

/-- A table where the pair (Yuntu_m1, client) occurs twice. -/
def yuntuConfig : Config :=
  { Title := "Artillery"
    Mappings :=
      [{ CustomerType := "Yuntu_m1", FirmwareType := "client",
         FilePath := "./artillery-m1-debs/Yuntu_m1-Yuntu_m1_client_deb-129.deb", Embed := true,
         Description := "client", VersionCode := 129, VersionName := "1.2.9" },
       { CustomerType := "Yuntu_m1", FirmwareType := "test",
         FilePath := "./artillery-m1-debs/Yuntu_m1-Yuntu_m1_test-129.deb", Embed := true,
         Description := "test", VersionCode := 129, VersionName := "1.2.9" },
       { CustomerType := "Yuntu_m1", FirmwareType := "client",
         FilePath := "./artillery-m1-debs/other.deb", Embed := true,
         Description := "again", VersionCode := 130, VersionName := "1.3.0" }] }

/-- A descriptor whose file name holds two consecutive dots. -/
def dottedMapping : FirmwareMapping :=
  { CustomerType := "X", FirmwareType := "Y", FilePath := "./fw..v2.deb", Embed := false,
    Description := "", VersionCode := 0, VersionName := "" }

def dottedConfig : Config :=
  { Title := "", Mappings := [dottedMapping] }

/-- A descriptor whose filePath ends in a redundant "." element: its raw base
name is "." and its path-cleaned base name is "f.deb". -/
def redundantMapping : FirmwareMapping :=
  { CustomerType := "X", FirmwareType := "Y", FilePath := "fw/f.deb/.", Embed := false,
    Description := "", VersionCode := 0, VersionName := "" }

def redundantConfig : Config :=
  { Title := "", Mappings := [redundantMapping] }
/-! ## Lemmas on the string routines -/

theorem strings.HasPrefix_append (p s : String) : strings.HasPrefix (p ++ s) p = true := by
  simp [strings.HasPrefix, String.data_append]

theorem strings.TrimPrefix_append (p s : String) : strings.TrimPrefix (p ++ s) p = s := by
  simp [strings.TrimPrefix, strings.HasPrefix_append, String.data_append]

theorem strings.containsList_iff (sub s : List Char) :
    strings.containsList sub s = true ↔ sub <:+: s := by
  induction s with
  | nil =>
    simp [strings.containsList]
  | cons c t ih =>
    rw [strings.containsList, Bool.or_eq_true, ih, List.isPrefixOf_iff_prefix,
      List.infix_cons_iff]

theorem strings.Contains_iff (s sub : String) :
    strings.Contains s sub = true ↔ ∃ a b : String, s = a ++ sub ++ b := by
  rw [strings.Contains, strings.containsList_iff]
  constructor
  · rintro ⟨a, b, h⟩
    exact ⟨⟨a⟩, ⟨b⟩, String.ext (by simp [String.data_append, ← h])⟩
  · rintro ⟨a, b, rfl⟩
    exact ⟨a.data, b.data, by simp [String.data_append]⟩

theorem strings.Contains_char_iff (s : String) (c : Char) :
    strings.Contains s ⟨[c]⟩ = true ↔ c ∈ s.data := by
  rw [strings.Contains, strings.containsList_iff]
  constructor
  · intro h
    exact List.singleton_sublist.mp h.sublist
  · intro h
    obtain ⟨a, b, hab⟩ := List.mem_iff_append.mp h
    exact ⟨a, b, by simp [hab]⟩

/-- A path-unsafe file name: it holds the substring `..` or the character `/`. -/
theorem unsafe_filename_contains (filename : String)
    (h : (∃ a b : String, filename = a ++ ".." ++ b) ∨ '/' ∈ filename.data) :
    (strings.Contains filename ".." || strings.Contains filename "/") = true := by
  rw [Bool.or_eq_true]
  rcases h with h | h
  · exact Or.inl ((strings.Contains_iff _ _).mpr h)
  · exact Or.inr ((strings.Contains_char_iff filename '/').mpr h)

theorem unsafe_filename_ne_empty (filename : String)
    (h : (∃ a b : String, filename = a ++ ".." ++ b) ∨ '/' ∈ filename.data) :
    (filename == "") = false := by
  rw [beq_eq_false_iff_ne]
  rintro rfl
  rcases h with ⟨a, b, h⟩ | h
  · have := congrArg String.data h
    simp [String.data_append] at this
  · simp at h

/-- The two download handlers on an empty or path-unsafe file name. -/
theorem handlers_reject_unsafe (w : World) (config : Config) (filename : String)
    (h : filename = "" ∨ (∃ a b : String, filename = a ++ ".." ++ b) ∨ '/' ∈ filename.data) :
    downloadHandler w config ("/download/" ++ filename)
        = .error (if filename = "" then "Filename not specified" else "Invalid filename") 400
      ∧ uploadFirmwareHandler w config ("/upload/firmware/" ++ filename)
        = .error (if filename = "" then "Filename not specified" else "Invalid filename")
            400 := by
  rcases h with rfl | h
  · simp only [downloadHandler, uploadFirmwareHandler, strings.TrimPrefix_append]
    simp
  · have h1 := unsafe_filename_ne_empty filename h
    have h2 := unsafe_filename_contains filename h
    have h3 : filename ≠ "" := by simpa using h1
    simp only [downloadHandler, uploadFirmwareHandler, strings.TrimPrefix_append, h1, h2, h3]
    simp

/-! ## The mux in front of the download handlers -/

theorem muxMatch_download (filename : String) :
    muxMatch ("/download/" ++ filename) = some .download := by
  have hne : ("/download/" ++ filename == "/home/downloadnewest") = false := by
    rw [beq_eq_false_iff_ne]
    intro h
    have := congrArg String.data h
    simp [String.data_append] at this
  simp only [muxMatch, hne, strings.HasPrefix_append]
  simp

theorem muxMatch_upload (filename : String) :
    muxMatch ("/upload/firmware/" ++ filename) = some .uploadFirmware := by
  have hne : ("/upload/firmware/" ++ filename == "/home/downloadnewest") = false := by
    rw [beq_eq_false_iff_ne]
    intro h
    have := congrArg String.data h
    simp [String.data_append] at this
  have hnd : strings.HasPrefix ("/upload/firmware/" ++ filename) "/download/" = false := by
    simp [strings.HasPrefix, String.data_append, List.isPrefixOf]
  simp only [muxMatch, hne, hnd, strings.HasPrefix_append]
  simp

theorem muxAddsSlash_download (filename : String) :
    muxAddsSlash ("/download/" ++ filename) = false := by
  have h1 : ("/download/" ++ filename == "/download") = false := by
    rw [beq_eq_false_iff_ne]
    intro h
    have := congrArg String.data h
    simp [String.data_append] at this
  have h2 : ("/download/" ++ filename == "/upload/firmware") = false := by
    rw [beq_eq_false_iff_ne]
    intro h
    have := congrArg String.data h
    simp [String.data_append] at this
  simp [muxAddsSlash, h1, h2]

theorem muxAddsSlash_upload (filename : String) :
    muxAddsSlash ("/upload/firmware/" ++ filename) = false := by
  have h1 : ("/upload/firmware/" ++ filename == "/download") = false := by
    rw [beq_eq_false_iff_ne]
    intro h
    have := congrArg String.data h
    simp [String.data_append] at this
  have h2 : ("/upload/firmware/" ++ filename == "/upload/firmware") = false := by
    rw [beq_eq_false_iff_ne]
    intro h
    have := congrArg String.data h
    simp [String.data_append] at this
  simp [muxAddsSlash, h1, h2]

theorem serverHandler_eq (redirectCode : Nat) (enableTracing : Bool) (w : World)
    (config : Config) (r : Request) :
    serverHandler redirectCode enableTracing w config r
      = muxServeHTTP redirectCode w config (initializeFirmwareCache w config) r := by
  unfold serverHandler tracingMiddleware
  cases enableTracing <;> rfl

/-- A clean path under "/download/" reaches the download handler. -/
theorem server_download_of_clean (redirectCode : Nat) (enableTracing : Bool) (w : World)
    (config : Config) (r : Request) (filename : String)
    (hclean : cleanPath r.Path = r.Path) (hpath : r.Path = "/download/" ++ filename) :
    serverHandler redirectCode enableTracing w config r
      = downloadHandler w config ("/download/" ++ filename) := by
  rw [serverHandler_eq]
  unfold muxServeHTTP
  simp only [hclean]
  rw [hpath]
  simp [muxAddsSlash_download, muxMatch_download]

/-- A clean path under "/upload/firmware/" reaches the upload handler. -/
theorem server_upload_of_clean (redirectCode : Nat) (enableTracing : Bool) (w : World)
    (config : Config) (r : Request) (filename : String)
    (hclean : cleanPath r.Path = r.Path) (hpath : r.Path = "/upload/firmware/" ++ filename) :
    serverHandler redirectCode enableTracing w config r
      = uploadFirmwareHandler w config ("/upload/firmware/" ++ filename) := by
  rw [serverHandler_eq]
  unfold muxServeHTTP
  simp only [hclean]
  rw [hpath]
  simp [muxAddsSlash_upload, muxMatch_upload]

/-- A path that is not clean is answered by the mux with a redirect. -/
theorem server_redirects_unclean (redirectCode : Nat) (enableTracing : Bool) (w : World)
    (config : Config) (r : Request) (hunclean : cleanPath r.Path ≠ r.Path) :
    ∃ location, serverHandler redirectCode enableTracing w config r
      = .redirect location redirectCode := by
  rw [serverHandler_eq]
  unfold muxServeHTTP
  by_cases hslash : muxAddsSlash (cleanPath r.Path) = true
  · refine ⟨redirectLocation (cleanPath r.Path ++ "/") r.RawQuery, ?_⟩
    simp only [hslash, if_true]
  · have hne : (cleanPath r.Path != r.Path) = true := by simpa using hunclean
    refine ⟨redirectLocation (cleanPath r.Path) r.RawQuery, ?_⟩
    simp only [hslash, hne, if_true, Bool.false_eq_true, if_false]

/-- C1 (amended): for every mapping table and every file name that is empty or
holds the substring ".." or the character "/", the handlers registered for
/download/ and /upload/firmware/, run on the URL path "/download/<filename>"
(or "/upload/firmware/<filename>"), answer 400 (validation error), and the
answer is a function of the file name alone: it is the same whatever the table
and the world are, so the same whether or not a descriptor of the table would
match the name (findFileMappingByFilename plays no part in it). Behind
http.ServeMux the two endpoints give that answer when the request path is
already clean (no "." or ".." element, no repeated slash); a request whose path
is not clean is answered by the mux with a redirect and the handler does not
run. -/
theorem download_handlers_reject_unsafe_filename (w w2 : World) (config config2 : Config)
    (filename : String)
    (h : filename = "" ∨ (∃ a b : String, filename = a ++ ".." ++ b) ∨ '/' ∈ filename.data) :
    (downloadHandler w config ("/download/" ++ filename)
        = .error (if filename = "" then "Filename not specified" else "Invalid filename") 400
      ∧ uploadFirmwareHandler w config ("/upload/firmware/" ++ filename)
        = .error (if filename = "" then "Filename not specified" else "Invalid filename") 400
      ∧ downloadHandler w2 config2 ("/download/" ++ filename)
        = downloadHandler w config ("/download/" ++ filename)
      ∧ uploadFirmwareHandler w2 config2 ("/upload/firmware/" ++ filename)
        = uploadFirmwareHandler w config ("/upload/firmware/" ++ filename))
    ∧ (∀ (redirectCode : Nat) (enableTracing : Bool) (r : Request),
        cleanPath r.Path = r.Path →
        (r.Path = "/download/" ++ filename →
          serverHandler redirectCode enableTracing w config r
            = .error (if filename = "" then "Filename not specified" else "Invalid filename")
                400)
        ∧ (r.Path = "/upload/firmware/" ++ filename →
          serverHandler redirectCode enableTracing w config r
            = .error (if filename = "" then "Filename not specified" else "Invalid filename")
                400))
    ∧ (∀ (redirectCode : Nat) (enableTracing : Bool) (r : Request),
        cleanPath r.Path ≠ r.Path →
        ∃ location, serverHandler redirectCode enableTracing w config r
          = .redirect location redirectCode) := by
  have key := handlers_reject_unsafe w config filename h
  have key2 := handlers_reject_unsafe w2 config2 filename h
  refine ⟨⟨key.1, key.2, key2.1.trans key.1.symm, key2.2.trans key.2.symm⟩, ?_, ?_⟩
  · intro redirectCode enableTracing r hclean
    refine ⟨fun hpath => ?_, fun hpath => ?_⟩
    · rw [server_download_of_clean redirectCode enableTracing w config r filename hclean hpath]
      exact key.1
    · rw [server_upload_of_clean redirectCode enableTracing w config r filename hclean hpath]
      exact key.2
  · intro redirectCode enableTracing r hunclean
    exact server_redirects_unclean redirectCode enableTracing w config r hunclean

/-- C1 (amended) on concrete requests: the handler answers 400 on the name
"../etc/passwd"; the server answers 400 on the clean path /download/a/b; and
"fw..v2.deb" is the base name of a configured filePath, the lookup would find
it, and the server answers 400 all the same. -/
theorem download_handlers_reject_unsafe_filename_witness :
    (downloadHandler specWorld specConfig ("/download/" ++ "../etc/passwd")
        = .error "Invalid filename" 400
      ∧ uploadFirmwareHandler specWorld specConfig ("/upload/firmware/" ++ "a/b")
        = .error "Invalid filename" 400)
    ∧ serverHandler 307 false specWorld specConfig
        { Path := "/download/" ++ "a/b", RawQuery := "", Query := [] }
      = .error "Invalid filename" 400
    ∧ (findFileMappingByFilename dottedConfig "fw..v2.deb" = some dottedMapping
      ∧ serverHandler 307 false specWorld dottedConfig
          { Path := "/upload/firmware/" ++ "fw..v2.deb", RawQuery := "", Query := [] }
        = .error "Invalid filename" 400) :=
  ⟨⟨(download_handlers_reject_unsafe_filename specWorld specWorld specConfig specConfig
        "../etc/passwd" (Or.inr (Or.inl ⟨"", "/etc/passwd", by decide⟩))).1.1,
    (download_handlers_reject_unsafe_filename specWorld specWorld specConfig specConfig
        "a/b" (Or.inr (Or.inr (by decide)))).1.2.1⟩,
   ((download_handlers_reject_unsafe_filename specWorld specWorld specConfig specConfig
        "a/b" (Or.inr (Or.inr (by decide)))).2.1 307 false
        { Path := "/download/" ++ "a/b", RawQuery := "", Query := [] } (by decide)).1 rfl,
   by decide,
   ((download_handlers_reject_unsafe_filename specWorld specWorld dottedConfig dottedConfig
        "fw..v2.deb" (Or.inr (Or.inl ⟨"fw", "v2.deb", by decide⟩))).2.1 307 false
        { Path := "/upload/firmware/" ++ "fw..v2.deb", RawQuery := "", Query := [] }
        (by decide)).2 rfl⟩

/-- C1 as stated fails at the endpoints: the file name "../etc/passwd" holds
"..", yet GET /download/../etc/passwd is not answered 400. The mux cleans the
path to "/etc/passwd" and answers with a redirect to it (status 307, or 301 with
an older library), with tracing on or off, and the handler does not run; the
same holds for /upload/firmware/../etc/passwd, cleaned to "/upload/etc/passwd". -/
theorem download_endpoints_counterexample :
    (∃ a b : String, "../etc/passwd" = a ++ ".." ++ b)
    ∧ cleanPath ("/download/" ++ "../etc/passwd") = "/etc/passwd"
    ∧ serverHandler 307 false specWorld specConfig
        { Path := "/download/" ++ "../etc/passwd", RawQuery := "", Query := [] }
      = .redirect "/etc/passwd" 307
    ∧ (serverHandler 307 false specWorld specConfig
        { Path := "/download/" ++ "../etc/passwd", RawQuery := "", Query := [] }).status
      ≠ some 400
    ∧ serverHandler 301 true specWorld specConfig
        { Path := "/download/" ++ "../etc/passwd", RawQuery := "", Query := [] }
      = .redirect "/etc/passwd" 301
    ∧ serverHandler 307 false specWorld specConfig
        { Path := "/upload/firmware/" ++ "../etc/passwd", RawQuery := "", Query := [] }
      = .redirect "/upload/etc/passwd" 307 := by
  refine ⟨⟨"", "/etc/passwd", by decide⟩, by decide, by decide, by decide, by decide,
    by decide⟩

/-! ## The loop of Clean: `rest.length` iterations are enough -/

theorem filepath.cleanLoop_fuel (rooted : Bool) (extra : Nat) :
    ∀ (fuel : Nat) (rest out : List Char) (dotdot : Nat), rest.length ≤ fuel →
      filepath.cleanLoop rooted (fuel + extra) rest out dotdot
        = filepath.cleanLoop rooted fuel rest out dotdot := by
  intro fuel
  induction fuel with
  | zero =>
    intro rest out dotdot h
    have hnil : rest = [] := List.length_eq_zero.mp (Nat.le_zero.mp h)
    subst hnil
    cases extra <;> simp [filepath.cleanLoop]
  | succ fuel ih =>
    intro rest out dotdot h
    cases rest with
    | nil => simp [filepath.cleanLoop, Nat.add_right_comm fuel 1 extra]
    | cons c r =>
      have hr : r.length ≤ fuel := by simpa using h
      have htail : r.tail.length ≤ fuel := by
        rw [List.length_tail]
        omega
      rw [Nat.add_right_comm fuel 1 extra]
      simp only [filepath.cleanLoop]
      have hdrop : (c == '/') = false →
          ((c :: r).dropWhile (fun x => x != '/')).length ≤ fuel := by
        intro hc
        rw [List.dropWhile_cons]
        simp only [bne, hc, Bool.not_false, if_true]
        exact le_trans ((List.dropWhile_sublist _).length_le) hr
      cases h1 : (c == '/') with
      | true =>
        simp only [if_true]
        exact ih r out dotdot hr
      | false =>
        simp only [Bool.false_eq_true, if_false]
        cases h2 : (c == '.' && (r.isEmpty || r.head? == some '/')) with
        | true =>
          simp only [if_true]
          exact ih r out dotdot hr
        | false =>
          simp only [Bool.false_eq_true, if_false]
          cases h3 : (c == '.' && r.head? == some '.'
              && (r.tail.isEmpty || r.tail.head? == some '/')) with
          | true =>
            simp only [if_true]
            by_cases h4 : out.length > dotdot
            · simp only [h4, if_true]
              exact ih _ _ _ htail
            · simp only [h4, if_false]
              cases rooted with
              | true =>
                simp only [Bool.not_true, Bool.false_eq_true, if_false]
                exact ih _ _ _ htail
              | false =>
                simp only [Bool.not_false, if_true]
                exact ih _ _ _ htail
          | false =>
            simp only [Bool.false_eq_true, if_false]
            exact ih _ _ _ (hdrop h1)

/-! ## The Query Service: linear scans with first match -/

/-- A linear scan returns `d` exactly when `d` satisfies the test and stands
behind a stretch of the table in which nothing does. -/
theorem scan_eq_some_iff {α : Type} (p : α → Bool) (table : List α) (d : α) :
    table.find? p = some d ↔
      ∃ before after, table = before ++ d :: after ∧ p d = true ∧ ∀ e ∈ before, p e = false := by
  rw [List.find?_eq_some]
  constructor
  · rintro ⟨hd, before, after, heq, hb⟩
    exact ⟨before, after, heq, hd, fun e he => by simpa using hb e he⟩
  · rintro ⟨before, after, heq, hd, hb⟩
    exact ⟨hd, before, after, heq, fun e he => by simp [hb e he]⟩

theorem scan_eq_none_iff {α : Type} (p : α → Bool) (table : List α) :
    table.find? p = none ↔ ∀ e ∈ table, p e = false := by
  simp

theorem findMapping_test_iff (customerType firmwareType : String) (e : FirmwareMapping) :
    (e.CustomerType == customerType && e.FirmwareType == firmwareType) = true
      ↔ e.CustomerType = customerType ∧ e.FirmwareType = firmwareType := by
  simp

theorem findFile_test_iff (filename : String) (e : FirmwareMapping) :
    (filepath.Base e.FilePath == filename
        || filepath.Base (filepath.Clean e.FilePath) == filename) = true
      ↔ filepath.Base e.FilePath = filename
        ∨ filepath.Base (filepath.Clean e.FilePath) = filename := by
  simp

/-- C3: findMapping returns the first descriptor in table order whose
CustomerType and FirmwareType both equal the arguments (first match wins among
duplicates), returns not-found exactly when no descriptor has both fields equal,
and two calls with the same arguments return the same descriptor. -/
theorem findMapping_first_match (config : Config) (customerType firmwareType : String) :
    (∀ d, findMapping config customerType firmwareType = some d ↔
        ∃ before after, config.Mappings = before ++ d :: after
          ∧ (d.CustomerType = customerType ∧ d.FirmwareType = firmwareType)
          ∧ ∀ e ∈ before, ¬ (e.CustomerType = customerType ∧ e.FirmwareType = firmwareType))
    ∧ (findMapping config customerType firmwareType = none ↔
        ∀ e ∈ config.Mappings,
          ¬ (e.CustomerType = customerType ∧ e.FirmwareType = firmwareType))
    ∧ (∀ first second, first = findMapping config customerType firmwareType →
        second = findMapping config customerType firmwareType → first = second) := by
  refine ⟨fun d => ?_, ?_, fun first second h1 h2 => h1.trans h2.symm⟩
  · unfold findMapping
    rw [scan_eq_some_iff]
    simp only [findMapping_test_iff, ← Bool.not_eq_true]
  · unfold findMapping
    rw [scan_eq_none_iff]
    simp only [findMapping_test_iff, ← Bool.not_eq_true]

/-- C9: findFileMappingByFilename returns the first descriptor in table order
for which the base name of filePath, or the base name of the path-cleaned
filePath, equals filename, and returns not-found exactly when no descriptor
satisfies either comparison. -/
theorem findFileMappingByFilename_first_match (config : Config) (filename : String) :
    (∀ d, findFileMappingByFilename config filename = some d ↔
        ∃ before after, config.Mappings = before ++ d :: after
          ∧ (filepath.Base d.FilePath = filename
              ∨ filepath.Base (filepath.Clean d.FilePath) = filename)
          ∧ ∀ e ∈ before, ¬ (filepath.Base e.FilePath = filename
              ∨ filepath.Base (filepath.Clean e.FilePath) = filename))
    ∧ (findFileMappingByFilename config filename = none ↔
        ∀ e ∈ config.Mappings, ¬ (filepath.Base e.FilePath = filename
            ∨ filepath.Base (filepath.Clean e.FilePath) = filename)) := by
  refine ⟨fun d => ?_, ?_⟩
  · unfold findFileMappingByFilename
    rw [scan_eq_some_iff]
    simp only [findFile_test_iff, ← Bool.not_eq_true]
  · unfold findFileMappingByFilename
    rw [scan_eq_none_iff]
    simp only [findFile_test_iff, ← Bool.not_eq_true]

/-- C10: for a descriptor d of the table, the lookup of the file name that
/home/downloadnewest advertises for d, Base(d.FilePath), finds a descriptor
(one whose raw or cleaned base name is that name); and it finds d itself when no
earlier descriptor of the table has a raw or path-cleaned base name equal to
Base(d.FilePath). -/
theorem advertised_filename_round_trip (config : Config) (d : FirmwareMapping)
    (before after : List FirmwareMapping)
    (hd : config.Mappings = before ++ d :: after) :
    (∃ m, findFileMappingByFilename config (filepath.Base d.FilePath) = some m
        ∧ m ∈ config.Mappings
        ∧ (filepath.Base m.FilePath = filepath.Base d.FilePath
            ∨ filepath.Base (filepath.Clean m.FilePath) = filepath.Base d.FilePath))
    ∧ ((∀ e ∈ before, filepath.Base e.FilePath ≠ filepath.Base d.FilePath
            ∧ filepath.Base (filepath.Clean e.FilePath) ≠ filepath.Base d.FilePath) →
        findFileMappingByFilename config (filepath.Base d.FilePath) = some d) := by
  constructor
  · cases hfind : findFileMappingByFilename config (filepath.Base d.FilePath) with
    | none =>
      exfalso
      unfold findFileMappingByFilename at hfind
      rw [scan_eq_none_iff] at hfind
      have hmem : d ∈ config.Mappings := by simp [hd]
      have := hfind d hmem
      simp at this
    | some m =>
      refine ⟨m, rfl, ?_, ?_⟩
      · exact List.mem_of_find?_eq_some hfind
      · have := List.find?_some hfind
        simpa using this
  · intro hbefore
    unfold findFileMappingByFilename
    rw [scan_eq_some_iff]
    refine ⟨before, after, hd, by simp, fun e he => ?_⟩
    have := hbefore e he
    simp [this.1, this.2]

/-! ## The Source Resolver: the normalised path of a bundled descriptor -/

theorem strings.HasPrefix_iff (s pre : String) :
    strings.HasPrefix s pre = true ↔ ∃ t : String, s = pre ++ t := by
  rw [strings.HasPrefix, List.isPrefixOf_iff_prefix]
  constructor
  · rintro ⟨t, h⟩
    exact ⟨⟨t⟩, String.ext (by simp [String.data_append, h])⟩
  · rintro ⟨t, rfl⟩
    exact ⟨t.data, by simp [String.data_append]⟩

theorem strings.TrimPrefix_of_not (s pre : String) (h : strings.HasPrefix s pre = false) :
    strings.TrimPrefix s pre = s := by
  simp [strings.TrimPrefix, h]

theorem strings.dotSlash_not_parent (r : String) :
    strings.HasPrefix ("./" ++ r) "../" = false := by
  simp [strings.HasPrefix, String.data_append, List.isPrefixOf]

theorem strings.append_assoc (a b c : String) : a ++ b ++ c = a ++ (b ++ c) :=
  String.ext (by simp [String.data_append])

theorem strings.empty_append (a : String) : "" ++ a = a :=
  String.ext (by simp [String.data_append])

/-- The path handed to the bundle, on the four shapes of a leading prefix. -/
theorem relativePath_shapes (rest : String) :
    fileExists_relativePath ("./" ++ rest) = rest
    ∧ fileExists_relativePath ("../" ++ rest) = strings.TrimPrefix rest "./"
    ∧ fileExists_relativePath (".././" ++ rest) = rest
    ∧ (strings.HasPrefix rest "../" = false → strings.HasPrefix rest "./" = false →
        fileExists_relativePath rest = rest) := by
  refine ⟨?_, ?_, ?_, ?_⟩
  · unfold fileExists_relativePath
    simp only [strings.TrimPrefix_of_not _ _ (strings.dotSlash_not_parent rest),
      strings.TrimPrefix_append]
  · unfold fileExists_relativePath
    simp only [strings.TrimPrefix_append]
  · unfold fileExists_relativePath
    have : (".././" : String) ++ rest = "../" ++ ("./" ++ rest) :=
      String.ext (by simp [String.data_append])
    simp only [this, strings.TrimPrefix_append]
  · intro h1 h2
    unfold fileExists_relativePath
    simp only [strings.TrimPrefix_of_not _ _ h1, strings.TrimPrefix_of_not _ _ h2]

theorem relativePath_same (filePath : String) :
    calculateMD5ForMapping_relativePath filePath = fileExists_relativePath filePath
    ∧ serveFileContent_relativePath filePath = fileExists_relativePath filePath
    ∧ GenerateEmbed.relativePath filePath = fileExists_relativePath filePath :=
  ⟨rfl, rfl, rfl⟩

/-- The prefix that the normalisation removes is one of four. -/
theorem relativePath_removed (filePath : String) :
    ∃ pre ∈ ["", "./", "../", ".././"], filePath = pre ++ fileExists_relativePath filePath := by
  by_cases h1 : strings.HasPrefix filePath "../" = true
  · obtain ⟨t, rfl⟩ := (strings.HasPrefix_iff _ _).mp h1
    by_cases h2 : strings.HasPrefix t "./" = true
    · obtain ⟨u, rfl⟩ := (strings.HasPrefix_iff _ _).mp h2
      refine ⟨".././", by simp, ?_⟩
      rw [(relativePath_shapes ("./" ++ u)).2.1, strings.TrimPrefix_append]
      exact String.ext (by simp [String.data_append])
    · refine ⟨"../", by simp, ?_⟩
      rw [(relativePath_shapes t).2.1, strings.TrimPrefix_of_not _ _ (by simpa using h2)]
  · by_cases h2 : strings.HasPrefix filePath "./" = true
    · obtain ⟨u, rfl⟩ := (strings.HasPrefix_iff _ _).mp h2
      exact ⟨"./", by simp, by rw [(relativePath_shapes u).1]⟩
    · refine ⟨"", by simp, ?_⟩
      rw [(relativePath_shapes filePath).2.2.2 (by simpa using h1) (by simpa using h2),
        strings.empty_append]

theorem relativePath_free (rest : String)
    (h1 : strings.HasPrefix rest "../" = false) (h2 : strings.HasPrefix rest "./" = false)
    (pre : String) (hpre : pre ∈ ["", "./", "../", ".././"]) :
    fileExists_relativePath (pre ++ rest) = rest := by
  simp only [List.mem_cons, List.mem_singleton, List.not_mem_nil, or_false] at hpre
  rcases hpre with rfl | rfl | rfl | rfl
  · rw [strings.empty_append]
    exact (relativePath_shapes rest).2.2.2 h1 h2
  · exact (relativePath_shapes rest).1
  · rw [(relativePath_shapes rest).2.1, strings.TrimPrefix_of_not _ _ h2]
  · exact (relativePath_shapes rest).2.2.1

/-- C7 (amended): for a bundled descriptor, fileExists, calculateMD5ForMapping
and serveFileContent hand the bundle the same path: filePath with at most one
leading "../" removed and then at most one leading "./" removed, so what is
removed is one of "", "./", "../", ".././". When filePath is one of these four
prefixes followed by a rest that begins with neither "../" nor "./", the
resolved path is that rest and begins with neither. -/
theorem relativePath_strips_once (filePath : String) :
    (calculateMD5ForMapping_relativePath filePath = fileExists_relativePath filePath
      ∧ serveFileContent_relativePath filePath = fileExists_relativePath filePath)
    ∧ fileExists_relativePath filePath
        = strings.TrimPrefix (strings.TrimPrefix filePath "../") "./"
    ∧ (∃ pre ∈ ["", "./", "../", ".././"],
        filePath = pre ++ fileExists_relativePath filePath)
    ∧ (∀ pre ∈ ["", "./", "../", ".././"], ∀ rest : String, filePath = pre ++ rest →
        strings.HasPrefix rest "../" = false → strings.HasPrefix rest "./" = false →
        fileExists_relativePath filePath = rest
          ∧ strings.HasPrefix (fileExists_relativePath filePath) "../" = false
          ∧ strings.HasPrefix (fileExists_relativePath filePath) "./" = false) := by
  refine ⟨⟨rfl, rfl⟩, rfl, relativePath_removed filePath, ?_⟩
  intro pre hpre rest hshape h1 h2
  subst hshape
  rw [relativePath_free rest h1 h2 pre hpre]
  exact ⟨rfl, h1, h2⟩

theorem relativePath_strips_once_witness :
    fileExists_relativePath ".././artillery-m1-debs/a.deb" = "artillery-m1-debs/a.deb"
      ∧ strings.HasPrefix (fileExists_relativePath ".././artillery-m1-debs/a.deb") "../" = false
      ∧ strings.HasPrefix (fileExists_relativePath ".././artillery-m1-debs/a.deb") "./" = false :=
  (relativePath_strips_once ".././artillery-m1-debs/a.deb").2.2.2
    ".././" (by decide) "artillery-m1-debs/a.deb" (by decide) (by decide) (by decide)

/-- C7 as stated fails: of the two leading "../" of "../../x" only one is
removed, in each of the three functions, and the resolved path "../x" still
begins with "../"; likewise "././x" resolves to "./x". -/
theorem relativePath_counterexample :
    fileExists_relativePath "../../x" = "../x"
      ∧ calculateMD5ForMapping_relativePath "../../x" = "../x"
      ∧ serveFileContent_relativePath "../../x" = "../x"
      ∧ strings.HasPrefix (fileExists_relativePath "../../x") "../" = true
      ∧ fileExists_relativePath "././x" = "./x"
      ∧ strings.HasPrefix (fileExists_relativePath "././x") "./" = true := by
  decide

/-! ## The bundling tool -/

theorem embedPaths_foldl (ms : List GenerateEmbed.FirmwareMapping)
    (acc : List String) :
    ms.foldl
        (fun embedPaths mapping =>
          if mapping.Embed then embedPaths ++ [GenerateEmbed.relativePath mapping.FilePath]
          else embedPaths)
        acc
      = acc ++ (ms.filter (fun m => m.Embed)).map (fun m => GenerateEmbed.relativePath m.FilePath) := by
  induction ms generalizing acc with
  | nil => simp
  | cons m ms ih =>
    rw [List.foldl_cons, ih]
    by_cases h : m.Embed = true
    · simp [h]
    · simp [h]

theorem mem_embedPaths (config : Config) (d : FirmwareMapping)
    (hd : d ∈ config.Mappings) (hEmbed : d.Embed = true) :
    GenerateEmbed.relativePath d.FilePath
      ∈ GenerateEmbed.embedPaths (toolDecodeConfig config) := by
  unfold GenerateEmbed.embedPaths
  rw [embedPaths_foldl]
  apply List.mem_append_right
  rw [List.mem_map]
  refine ⟨toolDecodeMapping d, ?_, rfl⟩
  rw [List.mem_filter]
  exact ⟨List.mem_map.mpr ⟨d, hd, rfl⟩, hEmbed⟩

/-- C8: for every filePath the normalised path the bundling tool computes for
an embed = true mapping is the same string as the one the server computes in
fileExists, in calculateMD5ForMapping and in serveFileContent; hence the path
the server opens for a bundled descriptor of the table is one of the paths the
tool lists for embedding. -/
theorem bundler_and_server_normalise_alike (filePath : String) :
    GenerateEmbed.relativePath filePath = fileExists_relativePath filePath
    ∧ GenerateEmbed.relativePath filePath = calculateMD5ForMapping_relativePath filePath
    ∧ GenerateEmbed.relativePath filePath = serveFileContent_relativePath filePath
    ∧ GenerateEmbed.relativePath filePath
        = strings.TrimPrefix (strings.TrimPrefix filePath "../") "./"
    ∧ (∀ (config : Config) (d : FirmwareMapping), d ∈ config.Mappings → d.Embed = true →
        d.FilePath = filePath →
        fileExists_relativePath filePath
            ∈ GenerateEmbed.embedPaths (toolDecodeConfig config)
          ∧ calculateMD5ForMapping_relativePath filePath
            ∈ GenerateEmbed.embedPaths (toolDecodeConfig config)
          ∧ serveFileContent_relativePath filePath
            ∈ GenerateEmbed.embedPaths (toolDecodeConfig config)) := by
  refine ⟨rfl, rfl, rfl, rfl, ?_⟩
  intro config d hd hEmbed hpath
  subst hpath
  have h := mem_embedPaths config d hd hEmbed
  exact ⟨h, h, h⟩

/-! ## The Metadata Cache -/

theorem cache_get_set (cache : FirmwareCache) (k key : String)
    (v : PreCalculatedFirmwareDetail) :
    (cache.set k v).get key = if key = k then some v else cache.get key := by
  unfold FirmwareCache.set FirmwareCache.get
  rw [List.lookup_cons]
  by_cases h : key = k
  · simp [h]
  · have hb : (key == k) = false := by simpa using h
    simp [h, hb]

/-- Descriptors with another key leave the entry of a key as it is. -/
theorem cache_build_get_of_absent (w : World) (ms : List FirmwareMapping) (cache : FirmwareCache)
    (key : String) (h : ∀ e ∈ ms, cacheKey e.CustomerType e.FirmwareType ≠ key) :
    (ms.foldl
        (fun (cache : FirmwareCache) mapping =>
          cache.set (cacheKey mapping.CustomerType mapping.FirmwareType)
            (initializeFirmwareCache.entry w mapping))
        cache).get key = cache.get key := by
  induction ms generalizing cache with
  | nil => rfl
  | cons m ms ih =>
    rw [List.foldl_cons, ih _ (fun e he => h e (List.mem_cons_of_mem _ he)), cache_get_set]
    have hm := h m (List.mem_cons_self _ _)
    rw [if_neg (fun hk => hm hk.symm)]

/-- The entry under the key of a descriptor that no later descriptor shares is
the one computed from that descriptor. -/
theorem cache_get_of_last (w : World) (config : Config) (d : FirmwareMapping)
    (before after : List FirmwareMapping) (hd : config.Mappings = before ++ d :: after)
    (hlast : ∀ e ∈ after, cacheKey e.CustomerType e.FirmwareType
        ≠ cacheKey d.CustomerType d.FirmwareType) :
    (initializeFirmwareCache w config).get (cacheKey d.CustomerType d.FirmwareType)
      = some (initializeFirmwareCache.entry w d) := by
  unfold initializeFirmwareCache
  rw [hd, List.foldl_append, List.foldl_cons, cache_build_get_of_absent w after _ _ hlast,
    cache_get_set, if_pos rfl]

/-- The entry under a key some descriptor has is the one computed from a
descriptor of the table with that key. -/
theorem cache_build_get_of_present (w : World) (ms : List FirmwareMapping)
    (cache : FirmwareCache) (key : String)
    (h : ∃ e ∈ ms, cacheKey e.CustomerType e.FirmwareType = key) :
    ∃ e ∈ ms, cacheKey e.CustomerType e.FirmwareType = key ∧
      (ms.foldl
        (fun (cache : FirmwareCache) mapping =>
          cache.set (cacheKey mapping.CustomerType mapping.FirmwareType)
            (initializeFirmwareCache.entry w mapping))
        cache).get key = some (initializeFirmwareCache.entry w e) := by
  induction ms generalizing cache with
  | nil =>
    obtain ⟨e, he, _⟩ := h
    cases he
  | cons m ms ih =>
    by_cases hrest : ∃ e ∈ ms, cacheKey e.CustomerType e.FirmwareType = key
    · obtain ⟨e, he, hk, hget⟩ := ih (cache.set (cacheKey m.CustomerType m.FirmwareType)
        (initializeFirmwareCache.entry w m)) hrest
      exact ⟨e, List.mem_cons_of_mem _ he, hk, by rw [List.foldl_cons]; exact hget⟩
    · have hm : cacheKey m.CustomerType m.FirmwareType = key := by
        obtain ⟨e, he, hk⟩ := h
        rcases List.mem_cons.mp he with rfl | he
        · exact hk
        · exact absurd ⟨e, he, hk⟩ hrest
      refine ⟨m, List.mem_cons_self _ _, hm, ?_⟩
      rw [List.foldl_cons, cache_build_get_of_absent w ms _ key
        (fun e he hk => hrest ⟨e, he, hk⟩), cache_get_set, if_pos hm.symm]

theorem cache_get_of_mem (w : World) (config : Config) (d : FirmwareMapping)
    (hd : d ∈ config.Mappings) :
    ∃ e ∈ config.Mappings,
      cacheKey e.CustomerType e.FirmwareType = cacheKey d.CustomerType d.FirmwareType
      ∧ (initializeFirmwareCache w config).get (cacheKey d.CustomerType d.FirmwareType)
        = some (initializeFirmwareCache.entry w e) :=
  cache_build_get_of_present w config.Mappings [] _ ⟨d, hd, rfl⟩

theorem fileExists_fst (w : World) (d : FirmwareMapping) :
    (fileExists w d).1 = existenceCheckSucceeds w d := by
  unfold fileExists existenceCheckSucceeds
  by_cases hE : d.Embed = true
  · simp only [hE, if_true]
    cases w.embeddedFiles (fileExists_relativePath d.FilePath) <;> rfl
  · simp only [hE]
    cases hs : os.Stat w d.FilePath with
    | none => simp [os.IsNotExist]
    | some err =>
      by_cases hn : err.notExist = true
      · simp [os.IsNotExist, hn]
      · simp [os.IsNotExist, hn]

theorem entry_FileExists (w : World) (d : FirmwareMapping) :
    (initializeFirmwareCache.entry w d).FileExists = existenceCheckSucceeds w d := by
  unfold initializeFirmwareCache.entry
  exact fileExists_fst w d

/-- C2 (amended): for every mapping table, every state of the bundle and the
filesystem, and every descriptor d of the table whose cache key
"customerType:firmwareType" no other descriptor of the table has, the cache
entry stored under that key after initializeFirmwareCache has
FileExists == true if and only if the existence check succeeds on d's own
artifact: bundled, the normalised path opens in the bundle; filesystem,
os.Stat of filePath succeeds (whether or not the file can then be opened and
read, which the entry records in Error). So there is no false negative, and for
a bundled d FileExists == true if and only if the artifact opens in the bundle. -/
theorem cache_exists_flag (w : World) (config : Config) (d : FirmwareMapping)
    (before after : List FirmwareMapping) (hd : config.Mappings = before ++ d :: after)
    (hother : ∀ e ∈ before ++ after, cacheKey e.CustomerType e.FirmwareType
        ≠ cacheKey d.CustomerType d.FirmwareType) :
    ∃ entry,
      (initializeFirmwareCache w config).get (cacheKey d.CustomerType d.FirmwareType)
          = some entry
      ∧ (entry.FileExists = true ↔ existenceCheckSucceeds w d = true)
      ∧ (d.Embed = true → (entry.FileExists = true ↔ artifactReadable w d = true))
      ∧ (artifactReadable w d = true → entry.FileExists = true) := by
  refine ⟨_, cache_get_of_last w config d before after hd
    (fun e he => hother e (List.mem_append_right _ he)), ?_, ?_, ?_⟩
  · rw [entry_FileExists]
  · intro hE
    rw [entry_FileExists]
    unfold existenceCheckSucceeds artifactReadable
    simp only [hE, if_true]
  · rw [entry_FileExists]
    unfold existenceCheckSucceeds artifactReadable
    by_cases hE : d.Embed = true
    · simp only [hE, if_true]
      exact id
    · simp only [hE]
      unfold os.Open os.Stat
      cases w.filesystem d.FilePath with
      | statError err => simp
      | present opened => simp

/-- C2 on the table of the end-to-end test: the file is there and the flag is set. -/
theorem cache_exists_flag_witness :
    ∃ entry,
      (initializeFirmwareCache specWorld specConfig).get (cacheKey "X" "Y") = some entry
      ∧ entry.FileExists = true :=
  have h := cache_exists_flag specWorld specConfig
    { CustomerType := "X", FirmwareType := "Y", FilePath := "./f.deb", Embed := false,
      Description := "", VersionCode := 0, VersionName := "" }
    [] [] rfl (by simp)
  h.elim fun entry he => ⟨entry, he.1, he.2.1.mpr (by decide)⟩

/-- C2 as stated fails twice. With the pair (X, Y) twice in the table, the first
descriptor's file f.deb is readable, yet the entry under "X:Y" was overwritten
by the second descriptor, whose file is missing, and has FileExists == false.
With a file that os.Stat finds and os.Open refuses, the artifact is not
readable, yet the entry has FileExists == true (and the open error in Error). -/
theorem cache_exists_flag_counterexample :
    (dupFirst ∈ dupConfig.Mappings
      ∧ artifactReadable specWorld dupFirst = true
      ∧ (initializeFirmwareCache specWorld dupConfig).get
          (cacheKey dupFirst.CustomerType dupFirst.FirmwareType)
        = some { MD5 := "", FileExists := false, Error := none })
    ∧ (lockedMapping ∈ lockedConfig.Mappings
      ∧ artifactReadable lockedWorld lockedMapping = false
      ∧ (initializeFirmwareCache lockedWorld lockedConfig).get
          (cacheKey lockedMapping.CustomerType lockedMapping.FirmwareType)
        = some { MD5 := "", FileExists := true, Error := some errPermission }) := by
  decide

/-! ## Response Assembly: GET /home/downloadnewest -/

/-- The decision table of the handler of /home/downloadnewest. -/
theorem downloadNewest_decision (w : World) (config : Config) (firmwareCache : FirmwareCache)
    (query : Query) :
    (downloadNewestHandler w config firmwareCache query).status
        = some
          (if query.Get "customerType" = "" ∨ query.Get "firmwareType" = "" then 400
           else if findMapping config (query.Get "customerType") (query.Get "firmwareType")
              = none then 404
           else
             match firmwareCache.get
                (cacheKey (query.Get "customerType") (query.Get "firmwareType")) with
             | none => 500
             | some cachedData =>
               if cachedData.Error ≠ none ∨ cachedData.FileExists = false then 404 else 200)
    ∧ ((downloadNewestHandler w config firmwareCache query).status = some 400
        ↔ (query.Get "customerType" = "" ∨ query.Get "firmwareType" = ""))
    ∧ ((downloadNewestHandler w config firmwareCache query).status = some 200
        ↔ ∃ body, downloadNewestHandler w config firmwareCache query = .json body
            ∧ body.Success = true) := by
  unfold downloadNewestHandler
  by_cases hmissing : query.Get "customerType" = "" ∨ query.Get "firmwareType" = ""
  · have hb : (query.Get "customerType" == "" || query.Get "firmwareType" == "") = true := by
      simpa using hmissing
    simp only [hb, if_true, hmissing, Response.status]
    simp
  · have hb : (query.Get "customerType" == "" || query.Get "firmwareType" == "") = false := by
      simpa using hmissing
    simp only [hb, hmissing, if_false]
    cases hfind : findMapping config (query.Get "customerType") (query.Get "firmwareType") with
    | none => simp [Response.status]
    | some mapping =>
      cases hget : firmwareCache.get
          (cacheKey (query.Get "customerType") (query.Get "firmwareType")) with
      | none => simp [Response.status]
      | some cachedData =>
        by_cases hbad : cachedData.Error ≠ none ∨ cachedData.FileExists = false
        · have hb2 : (cachedData.Error.isSome || !cachedData.FileExists) = true := by
            rcases hbad with h | h
            · simp [Option.isSome_iff_ne_none, h]
            · simp [h]
          simp [hb2, hbad, Response.status]
        · have hb2 : (cachedData.Error.isSome || !cachedData.FileExists) = false := by
            simp only [not_or, ne_eq, not_not, Bool.not_eq_false] at hbad
            simp [hbad.1, hbad.2]
          simp [hb2, hbad, Response.status]

/-- C4: for every mapping table, cache and query of GET /home/downloadnewest the
status is 400 if and only if customerType or firmwareType is missing (empty);
otherwise 404 if findMapping finds no descriptor; otherwise 500 if the cache
has no entry under "customerType:firmwareType"; otherwise 404 if the cached
entry recorded an error or FileExists is false; otherwise 200, with
success = true. -/
theorem downloadNewest_status (w : World) (config : Config) (firmwareCache : FirmwareCache)
    (query : Query) :
    (downloadNewestHandler w config firmwareCache query).status
        = some
          (if query.Get "customerType" = "" ∨ query.Get "firmwareType" = "" then 400
           else if findMapping config (query.Get "customerType") (query.Get "firmwareType")
              = none then 404
           else
             match firmwareCache.get
                (cacheKey (query.Get "customerType") (query.Get "firmwareType")) with
             | none => 500
             | some cachedData =>
               if cachedData.Error ≠ none ∨ cachedData.FileExists = false then 404 else 200)
    ∧ ((downloadNewestHandler w config firmwareCache query).status = some 400
        ↔ (query.Get "customerType" = "" ∨ query.Get "firmwareType" = ""))
    ∧ ((downloadNewestHandler w config firmwareCache query).status = some 200
        ↔ ∃ body, downloadNewestHandler w config firmwareCache query = .json body
            ∧ body.Success = true) :=
  downloadNewest_decision w config firmwareCache query

/-- C4 on the specification's two requests: (X, missing) is answered 400, and
the unknown pair (Q, Z) is answered 404. -/
theorem downloadNewest_status_witness :
    (downloadNewestHandler specWorld specConfig (initializeFirmwareCache specWorld specConfig)
        [("customerType", "X")]).status = some 400
    ∧ (downloadNewestHandler specWorld specConfig (initializeFirmwareCache specWorld specConfig)
        [("customerType", "Q"), ("firmwareType", "Z")]).status = some 404 :=
  ⟨(downloadNewest_status specWorld specConfig (initializeFirmwareCache specWorld specConfig)
      [("customerType", "X")]).2.1.mpr (by decide),
   by
    rw [(downloadNewest_status specWorld specConfig
      (initializeFirmwareCache specWorld specConfig)
      [("customerType", "Q"), ("firmwareType", "Z")]).1]
    decide⟩

/-- C6: whatever the existence check and the hash computation yield on each
entry, the cache initializeFirmwareCache builds has an entry under the key
"customerType:firmwareType" of every descriptor of the table; so when the cache
is built from the table that findMapping searches, /home/downloadnewest never
answers 500 "Cache entry not found". -/
theorem cache_entry_for_every_descriptor (w : World) (config : Config) :
    (∀ d ∈ config.Mappings, ∃ entry,
        (initializeFirmwareCache w config).get (cacheKey d.CustomerType d.FirmwareType)
          = some entry)
    ∧ (∀ query : Query, (serveDownloadNewest w config query).status ≠ some 500
        ∧ serveDownloadNewest w config query ≠ .error "Cache entry not found" 500) := by
  have hall : ∀ d ∈ config.Mappings, ∃ entry,
      (initializeFirmwareCache w config).get (cacheKey d.CustomerType d.FirmwareType)
        = some entry := by
    intro d hd
    obtain ⟨e, _, _, hget⟩ := cache_get_of_mem w config d hd
    exact ⟨_, hget⟩
  refine ⟨hall, fun query => ?_⟩
  have hstatus : (serveDownloadNewest w config query).status ≠ some 500 := by
    unfold serveDownloadNewest
    rw [(downloadNewest_decision w config (initializeFirmwareCache w config) query).1]
    by_cases hmissing : query.Get "customerType" = "" ∨ query.Get "firmwareType" = ""
    · simp [hmissing]
    · cases hfind : findMapping config (query.Get "customerType") (query.Get "firmwareType") with
      | none => simp [hmissing]
      | some mapping =>
        have hmem := List.mem_of_find?_eq_some hfind
        have hp := List.find?_some hfind
        rw [findMapping_test_iff] at hp
        obtain ⟨entry, hentry⟩ := hall mapping hmem
        rw [hp.1, hp.2] at hentry
        simp only [hmissing, if_false, hentry]
        split
        · simp
        · split <;> simp
  refine ⟨hstatus, fun h => hstatus ?_⟩
  rw [h]
  rfl

theorem keysUnique_last (config : Config) (hkeys : keysUnique config) (d : FirmwareMapping)
    (before after : List FirmwareMapping) (hd : config.Mappings = before ++ d :: after) :
    (∀ e ∈ before, cacheKey e.CustomerType e.FirmwareType
        ≠ cacheKey d.CustomerType d.FirmwareType)
    ∧ (∀ e ∈ after, cacheKey e.CustomerType e.FirmwareType
        ≠ cacheKey d.CustomerType d.FirmwareType) := by
  unfold keysUnique at hkeys
  rw [hd, List.pairwise_append] at hkeys
  obtain ⟨_, hcons, hcross⟩ := hkeys
  rw [List.pairwise_cons] at hcons
  exact ⟨fun e he => hcross e he d (List.mem_cons_self _ _),
    fun e he h => hcons.1 e he h.symm⟩

theorem findMapping_of_first (config : Config) (d : FirmwareMapping)
    (before after : List FirmwareMapping) (hd : config.Mappings = before ++ d :: after)
    (hfirst : ∀ e ∈ before,
      ¬ (e.CustomerType = d.CustomerType ∧ e.FirmwareType = d.FirmwareType)) :
    findMapping config d.CustomerType d.FirmwareType = some d := by
  unfold findMapping
  rw [scan_eq_some_iff]
  refine ⟨before, after, hd, by simp, fun e he => ?_⟩
  rw [← Bool.not_eq_true, findMapping_test_iff]
  exact hfirst e he

theorem calculateMD5_of_bytes (w : World) (d : FirmwareMapping) (bytes : List Nat)
    (hbytes : artifactBytes w d = some bytes) :
    calculateMD5ForMapping w d = (hex.EncodeToString (md5.Sum bytes), none) := by
  unfold artifactBytes at hbytes
  unfold calculateMD5ForMapping
  generalize (if d.Embed = true then
      w.embeddedFiles (calculateMD5ForMapping_relativePath d.FilePath)
    else os.Open w d.FilePath) = opened at hbytes ⊢
  cases opened with
  | error err => cases hbytes
  | ok f =>
    cases hread : f.content with
    | error err =>
      simp only [hread] at hbytes
      cases hbytes
    | ok bs =>
      simp only [hread, Option.some.injEq] at hbytes
      subst hbytes
      simp only [hread]

theorem fileExists_of_bytes (w : World) (d : FirmwareMapping) (bytes : List Nat)
    (hbytes : artifactBytes w d = some bytes) :
    fileExists w d = (true, none) := by
  unfold artifactBytes at hbytes
  unfold fileExists
  cases hE : d.Embed with
  | true =>
    simp only [hE, if_true] at hbytes ⊢
    have hsame : fileExists_relativePath d.FilePath
        = calculateMD5ForMapping_relativePath d.FilePath := rfl
    rw [hsame]
    cases hopen : w.embeddedFiles (calculateMD5ForMapping_relativePath d.FilePath) with
    | error err =>
      rw [hopen] at hbytes
      cases hbytes
    | ok f => rfl
  | false =>
    simp only [hE, Bool.false_eq_true, if_false] at hbytes ⊢
    unfold os.Open at hbytes
    unfold os.Stat
    cases hnode : w.filesystem d.FilePath with
    | statError err =>
      rw [hnode] at hbytes
      cases hbytes
    | present opened => rfl

theorem entry_of_bytes (w : World) (d : FirmwareMapping) (bytes : List Nat)
    (hbytes : artifactBytes w d = some bytes) :
    initializeFirmwareCache.entry w d
      = { MD5 := hex.EncodeToString (md5.Sum bytes), FileExists := true, Error := none } := by
  unfold initializeFirmwareCache.entry
  rw [fileExists_of_bytes w d bytes hbytes, calculateMD5_of_bytes w d bytes hbytes]
  rfl

/-! ## The content hash: sixteen bytes, thirty-two lower-case hexadecimal digits -/

theorem md5.Sum_length (msg : List Nat) : (md5.Sum msg).length = 16 := by
  simp [md5.Sum, md5.leBytes]

theorem hex.digit_lower (n : Nat) : isLowerHex (hex.digit (n % 16)) = true := by
  have h : ∀ k, k < 16 → isLowerHex (hex.digit k) = true := by decide
  exact h _ (Nat.mod_lt _ (by decide))

theorem hex.EncodeToString_length (bs : List Nat) :
    (hex.EncodeToString bs).data.length = 2 * bs.length := by
  unfold hex.EncodeToString
  induction bs with
  | nil => rfl
  | cons b bs ih =>
    simp only [List.flatMap_cons, List.length_append, List.length_cons, List.length_nil]
    simp only [List.length_cons] at ih ⊢
    omega

theorem hex.EncodeToString_lower (bs : List Nat) :
    ∀ c ∈ (hex.EncodeToString bs).data, isLowerHex c = true := by
  unfold hex.EncodeToString
  intro c hc
  simp only [List.mem_flatMap, List.mem_cons, List.mem_singleton, List.not_mem_nil,
    or_false] at hc
  obtain ⟨b, _, rfl | rfl⟩ := hc
  · exact hex.digit_lower _
  · exact hex.digit_lower _

theorem md5_hex_format (msg : List Nat) :
    (hex.EncodeToString (md5.Sum msg)).data.length = 32
      ∧ ∀ c ∈ (hex.EncodeToString (md5.Sum msg)).data, isLowerHex c = true := by
  refine ⟨?_, hex.EncodeToString_lower _⟩
  rw [hex.EncodeToString_length, md5.Sum_length]

/-- C5 (amended): for every mapping table whose cache keys
"customerType:firmwareType" are unique (so that its pairs are unique too), with
the cache built from that same table, and every descriptor d of the table with a
non-empty customerType and a non-empty firmwareType whose artifact opens and
reads to the end: GET /home/downloadnewest for (d.customerType, d.firmwareType)
is answered 200 with success = true, firmwareMD5 equal to the lower-case hex MD5
digest (32 digits) of d's own artifact bytes, path equal to "/upload/firmware/"
followed by the base name of d.filePath, and d's description, versionCode and
versionName. -/
theorem downloadNewest_carries_own_metadata (w : World) (config : Config)
    (d : FirmwareMapping) (bytes : List Nat) (query : Query)
    (hkeys : keysUnique config) (hd : d ∈ config.Mappings)
    (hct : d.CustomerType ≠ "") (hft : d.FirmwareType ≠ "")
    (hbytes : artifactBytes w d = some bytes)
    (hq1 : query.Get "customerType" = d.CustomerType)
    (hq2 : query.Get "firmwareType" = d.FirmwareType) :
    pairsUnique config
    ∧ (serveDownloadNewest w config query).status = some 200
    ∧ ∃ body, serveDownloadNewest w config query = .json body
        ∧ body.Success = true
        ∧ body.Rows.FirmwareMD5 = hex.EncodeToString (md5.Sum bytes)
        ∧ body.Rows.FirmwareMD5.data.length = 32
        ∧ (∀ c ∈ body.Rows.FirmwareMD5.data, isLowerHex c = true)
        ∧ body.Rows.Path = "/upload/firmware/" ++ filepath.Base d.FilePath
        ∧ body.Rows.Description = d.Description
        ∧ body.Rows.VersionCode = d.VersionCode
        ∧ body.Rows.VersionName = d.VersionName
        ∧ body.Rows.CustomerType = d.CustomerType
        ∧ body.Rows.FirmwareType = d.FirmwareType := by
  obtain ⟨before, after, hsplit⟩ := List.mem_iff_append.mp hd
  obtain ⟨hbefore, hafter⟩ := keysUnique_last config hkeys d before after hsplit
  have hfind : findMapping config d.CustomerType d.FirmwareType = some d :=
    findMapping_of_first config d before after hsplit
      (fun e he h => hbefore e he (by rw [h.1, h.2]))
  have hget := cache_get_of_last w config d before after hsplit hafter
  rw [entry_of_bytes w d bytes hbytes] at hget
  have hb : (d.CustomerType == "" || d.FirmwareType == "") = false := by
    simp [hct, hft]
  have hresp : serveDownloadNewest w config query = .json
      { Success := true
        Title := config.Title
        Rows :=
          { CreateTime := w.nowFormatted
            CustomerType := d.CustomerType
            Description := d.Description
            FirmwareMD5 := hex.EncodeToString (md5.Sum bytes)
            FirmwareType := d.FirmwareType
            Id := generateId w d.CustomerType d.FirmwareType
            IsPublish := true
            Name := generateName d.CustomerType d.FirmwareType
            Path := "/upload/firmware/" ++ filepath.Base d.FilePath
            VersionCode := d.VersionCode
            VersionName := d.VersionName } } := by
    unfold serveDownloadNewest downloadNewestHandler
    simp only [hq1, hq2, hb, hfind, hget]
    simp
  refine ⟨?_, ?_, _, hresp, rfl, rfl, (md5_hex_format bytes).1, (md5_hex_format bytes).2,
    rfl, rfl, rfl, rfl, rfl, rfl⟩
  · unfold pairsUnique
    exact List.Pairwise.imp (fun hne h => hne (by rw [h.1, h.2])) hkeys
  · rw [hresp]
    rfl

/-- C5 on the specification's end-to-end test: the table with the one filesystem
entry (X, Y, "./f.deb"), the file holding "abc". -/
theorem downloadNewest_carries_own_metadata_witness :
    ∃ body, serveDownloadNewest specWorld specConfig
          [("customerType", "X"), ("firmwareType", "Y")] = .json body
        ∧ body.Success = true
        ∧ body.Rows.FirmwareMD5 = "900150983cd24fb0d6963f7d28e17f72"
        ∧ body.Rows.Path = "/upload/firmware/f.deb" :=
  have h := downloadNewest_carries_own_metadata specWorld specConfig
    { CustomerType := "X", FirmwareType := "Y", FilePath := "./f.deb", Embed := false,
      Description := "", VersionCode := 0, VersionName := "" }
    [97, 98, 99] [("customerType", "X"), ("firmwareType", "Y")]
    (by simp [keysUnique, specConfig]) (by simp [specConfig]) (by decide) (by decide) (by decide)
    (by decide) (by decide)
  h.2.2.elim fun body hb =>
    ⟨body, hb.1, hb.2.1, hb.2.2.1.trans (by decide), hb.2.2.2.2.2.1.trans (by decide)⟩

/-- C5 as stated fails twice. The pairs (a:b, c) and (a, b:c) are different, the
table's pairs are unique and f.deb is readable, yet both descriptors have the
cache key "a:b:c": the request for (a:b, c) is answered 200 with the digest of
g.deb, the second descriptor's file, not that of f.deb. And a descriptor with an
empty customerType gets no 200 response: its request is answered 400. -/
theorem downloadNewest_carries_own_metadata_counterexample :
    (pairsUnique colonConfig
      ∧ colonFirst ∈ colonConfig.Mappings
      ∧ artifactBytes colonWorld colonFirst = some [97, 98, 99]
      ∧ hex.EncodeToString (md5.Sum [97, 98, 99]) = "900150983cd24fb0d6963f7d28e17f72"
      ∧ ∃ body, serveDownloadNewest colonWorld colonConfig
            [("customerType", "a:b"), ("firmwareType", "c")] = .json body
          ∧ body.Rows.FirmwareMD5 = "4911e516e5aa21d327512e0c8b197616"
          ∧ body.Rows.FirmwareMD5 ≠ hex.EncodeToString (md5.Sum [97, 98, 99]))
    ∧ (pairsUnique blankConfig
      ∧ blankMapping ∈ blankConfig.Mappings
      ∧ artifactBytes specWorld blankMapping = some [97, 98, 99]
      ∧ serveDownloadNewest specWorld blankConfig [("customerType", ""), ("firmwareType", "Y")]
        = .error "Missing customerType or firmwareType parameters" 400) := by
  refine ⟨⟨by simp [pairsUnique, colonConfig, colonFirst], by decide, by decide, by decide,
    _, rfl, by decide, by decide⟩, by simp [pairsUnique, blankConfig], by decide, by decide,
    by decide⟩

/-! ## Worked instances of the Query Service and of the bundling tool -/

/-- C3 on a table where the pair (Yuntu_m1, client) occurs twice: the first of
the two descriptors is returned, at every call. -/
theorem findMapping_first_match_witness :
    findMapping yuntuConfig "Yuntu_m1" "client"
        = some { CustomerType := "Yuntu_m1", FirmwareType := "client",
                 FilePath := "./artillery-m1-debs/Yuntu_m1-Yuntu_m1_client_deb-129.deb",
                 Embed := true, Description := "client", VersionCode := 129,
                 VersionName := "1.2.9" }
    ∧ findMapping yuntuConfig "Yuntu_m1" "client" = findMapping yuntuConfig "Yuntu_m1" "client"
    ∧ findMapping yuntuConfig "Yuntu_m1" "server" = none :=
  ⟨((findMapping_first_match yuntuConfig "Yuntu_m1" "client").1 _).mpr
      ⟨[], _, rfl, ⟨rfl, rfl⟩, by simp⟩,
   (findMapping_first_match yuntuConfig "Yuntu_m1" "client").2.2 _ _ rfl rfl,
   (findMapping_first_match yuntuConfig "Yuntu_m1" "server").2.1.mpr (by decide)⟩

/-- C9 on a filePath with a redundant last element: "f.deb" is not the raw base
name of "fw/f.deb/." and is its path-cleaned base name, so the descriptor is found. -/
theorem findFileMappingByFilename_first_match_witness :
    filepath.Base redundantMapping.FilePath = "."
    ∧ filepath.Base (filepath.Clean redundantMapping.FilePath) = "f.deb"
    ∧ findFileMappingByFilename redundantConfig "f.deb" = some redundantMapping
    ∧ findFileMappingByFilename redundantConfig "g.deb" = none :=
  ⟨by decide, by decide,
   ((findFileMappingByFilename_first_match redundantConfig "f.deb").1 _).mpr
      ⟨[], [], rfl, Or.inr (by decide), by simp⟩,
   (findFileMappingByFilename_first_match redundantConfig "g.deb").2.mpr (by decide)⟩

/-- C10 on the table of the end-to-end test: the advertised name "f.deb" leads
back to the descriptor. -/
theorem advertised_filename_round_trip_witness :
    filepath.Base "./f.deb" = "f.deb"
    ∧ findFileMappingByFilename specConfig (filepath.Base "./f.deb")
      = some { CustomerType := "X", FirmwareType := "Y", FilePath := "./f.deb", Embed := false,
               Description := "", VersionCode := 0, VersionName := "" } :=
  ⟨by decide,
   (advertised_filename_round_trip specConfig
      { CustomerType := "X", FirmwareType := "Y", FilePath := "./f.deb", Embed := false,
        Description := "", VersionCode := 0, VersionName := "" }
      [] [] rfl).2 (by simp)⟩

/-- C8 on a table with bundled entries: the tool lists the paths the server opens. -/
theorem bundler_and_server_normalise_alike_witness :
    GenerateEmbed.embedPaths (toolDecodeConfig yuntuConfig)
        = ["config.json", "artillery-m1-debs/Yuntu_m1-Yuntu_m1_client_deb-129.deb",
           "artillery-m1-debs/Yuntu_m1-Yuntu_m1_test-129.deb", "artillery-m1-debs/other.deb"]
    ∧ fileExists_relativePath "./artillery-m1-debs/other.deb"
        ∈ GenerateEmbed.embedPaths (toolDecodeConfig yuntuConfig) :=
  ⟨by decide,
   ((bundler_and_server_normalise_alike "./artillery-m1-debs/other.deb").2.2.2.2 yuntuConfig
      { CustomerType := "Yuntu_m1", FirmwareType := "client",
        FilePath := "./artillery-m1-debs/other.deb", Embed := true,
        Description := "again", VersionCode := 130, VersionName := "1.3.0" }
      (by decide) rfl rfl).1⟩
